import Mathlib

/-!
Verification of the sheet-selection core of the
`random_striver_sheet_question_opener` repository.

The definitions below are a shallow embedding of the Python source:

* `remove_solved`, `get_random_topic`, `update_history`, `processStep`,
  `mark_revision` embed the corresponding methods of
  `SheetHandler` (`sheet_handler.py`);
* `read_history` embeds `SheetHandler._read_history`;
* `create_handler` embeds `SheetHandlerFactory.create_handler`
  (`server/sheet_handler_factory.py`, with the per-type configuration from
  `server/sheet_handlers.py`);
* `get_sheet_type_server` / `get_sheet_type_cli` / `filter_sheets` embed the
  two `SheetHandlerFactory.get_sheet_type` variants and the
  `/filter-sheets` endpoint;
* `serverSelectTopic` embeds the `/select-topic` endpoint of
  `server/app.py` (selection part, after the sheet type is fixed).

Randomness (`random.choice`) is modelled by an index argument `k`: the
chosen element of a non-empty list `l` is `l[k % l.length]`, which ranges
over exactly the possible outcomes of `random.choice`.  File I/O is
modelled by explicit state values.  `Config.kDebugMode` is the constant
`False` placeholder of the source and is inlined as such.
-/

namespace SheetOpener

/-- Python value that can sit in a topic's `id` field after JSON/BSON
decoding: a string, an integer, or `None`.  (`sheet_handler.py` only ever
applies `str()` to this value.) -/
inductive PyVal where
  | vStr (s : String)
  | vInt (n : Int)
  | vNone
deriving DecidableEq, Repr

/-- Python `str()` of a `PyVal` (`str(None) == "None"`). -/
def pyStr : PyVal → String
  | .vStr s => s
  | .vInt n => toString n
  | .vNone => "None"

/-- One stored topic record (`Dict[str, Any]`), restricted to the fields the
engine reads: `id` (`none` means the key is absent, `some .vNone` a stored
null) and `title`.  Remaining fields are opaque to the engine. -/
structure Topic where
  id : Option PyVal
  title : Option String
deriving DecidableEq, Repr

/-- Value of `topic.get("id", None)`: `None` both when the key is missing
and when the stored value is null. -/
def getIdD (t : Topic) : PyVal :=
  t.id.getD PyVal.vNone

/-- Embeds `SheetHandler.remove_solved`: keeps the items of `sheet_data`
whose id, via `str(item.get("id", None))`, is not in `solved_ids`. -/
def remove_solved (sheet_data : List Topic) (solved_ids : List String) :
    List Topic :=
  sheet_data.filter (fun item => !(solved_ids.contains (pyStr (getIdD item))))

/-- Embeds `random.choice` on a list, the random draw being supplied as the
index `k`; `none` models the `IndexError` raised on an empty sequence. -/
def randomChoice (k : Nat) (l : List Topic) : Option Topic :=
  l.get? (k % l.length)

/-- Embeds `SheetHandler.get_random_topic`: explicit guard on the empty
list, then `random.choice`. -/
def get_random_topic (k : Nat) (filtered_data : List Topic) : Option Topic :=
  if filtered_data.isEmpty then none
  else randomChoice k filtered_data

/-- Embeds `SheetHandler.update_history`: skip on `None`, else append
`str(new_id)` to the history list (plain list append). -/
def update_history (history : List String) (new_id : Option PyVal) :
    List String :=
  match new_id with
  | none => history
  | some v => history ++ [pyStr v]

/-- Outcome of one run of `SheetHandler.process` (selection part). -/
inductive SelOutcome where
  | noTopics
  | missingId
  | repeatGuard
  | selected (t : Topic)
deriving DecidableEq, Repr

/-- Embeds the selection flow of `SheetHandler.process` (steps 3-6 of the
method: filter solved, random draw, missing-id check, repeat guard,
history update).  Returns the outcome and the updated in-memory history
list.  `should_allow_repeats` is `False` (set in `__init__`, never
changed). -/
def processStep (data : List Topic) (k : Nat) (hist : List String) :
    SelOutcome × List String :=
  let filtered := remove_solved data hist
  match get_random_topic k filtered with
  | none => (SelOutcome.noTopics, hist)
  | some t =>
    if getIdD t = PyVal.vNone then (SelOutcome.missingId, hist)
    else
      let idStr := pyStr (getIdD t)
      if hist.contains idStr then (SelOutcome.repeatGuard, hist)
      else (SelOutcome.selected t, update_history hist (some (PyVal.vStr idStr)))

/-- JSON value as decoded by Python's `json.loads` (integral numbers only,
which is all the history files ever hold). -/
inductive Json where
  | jNull
  | jBool (b : Bool)
  | jNum (n : Int)
  | jStr (s : String)
  | jArr (elems : List Json)
  | jObj (fields : List (String × Json))

mutual

/-- Python `repr()` of a `json.loads` result (string quoting and escaping
simplified: ids are plain alphanumeric strings in this repository). -/
def pyReprJ : Json → String
  | .jNull => "None"
  | .jBool true => "True"
  | .jBool false => "False"
  | .jNum n => toString n
  | .jStr s => "'" ++ s ++ "'"
  | .jArr l => "[" ++ ", ".intercalate (pyReprJList l) ++ "]"
  | .jObj f => "\x7b" ++ ", ".intercalate (pyReprJFields f) ++ "\x7d"

/-- Helper for `pyReprJ` over arrays. -/
def pyReprJList : List Json → List String
  | [] => []
  | v :: vs => pyReprJ v :: pyReprJList vs

/-- Helper for `pyReprJ` over object fields. -/
def pyReprJFields : List (String × Json) → List String
  | [] => []
  | (k, v) :: fs => ("'" ++ k ++ "': " ++ pyReprJ v) :: pyReprJFields fs

end

/-- Python `str()` of a `json.loads` result (differs from `repr` only on
strings). -/
def pyStrJ : Json → String
  | .jStr s => s
  | v => pyReprJ v

/-- Python dict lookup for an object decoded by `json.loads`: on duplicate
keys the last occurrence wins. -/
def jObjLookup (fields : List (String × Json)) (key : String) : Option Json :=
  (fields.reverse.find? (fun p => p.1 = key)).map (fun p => p.2)

/-- State of the history file as seen by `_read_history`. -/
inductive HistFile where
  | absent
  | emptyContent
  | malformed
  | readError
  | parsed (v : Json)

/-- Embeds `SheetHandler._read_history`: absent file is created holding
`{"solved_ids": []}` and yields `[]`; empty content, a JSON decode error,
an I/O error, or a value not of shape `{"solved_ids": [...]}` all yield
`[]`; a well-shaped file yields its ids, each passed through `str()`.
Returns the id list and the resulting file state. -/
def read_history : HistFile → List String × HistFile
  | .absent => ([], .parsed (Json.jObj [("solved_ids", Json.jArr [])]))
  | .emptyContent => ([], .emptyContent)
  | .malformed => ([], .malformed)
  | .readError => ([], .readError)
  | .parsed v =>
    match v with
    | Json.jObj fields =>
      match jObjLookup fields "solved_ids" with
      | some (Json.jArr ids) => (ids.map pyStrJ, .parsed v)
      | _ => ([], .parsed v)
    | _ => ([], .parsed v)

/-- Python sequence as it reaches `SheetHandler.mark_revision`: the CLI
flow passes the in-memory history list (`List[str]`), while the
`/mark-revision` endpoint of `server/app.py` passes the raw `topic_id`
string. -/
inductive PySeq where
  | ofList (l : List String)
  | ofStr (s : String)
deriving DecidableEq, Repr

/-- Python truthiness of the sequence (`if not current_history`). -/
def pySeqTruthy : PySeq → Bool
  | .ofList l => !l.isEmpty
  | .ofStr s => !s.isEmpty

/-- Python `seq[-1]`: last element of a list, or the last character of a
string as a one-character string; `none` models the `IndexError` on an
empty sequence. -/
def pySeqLast : PySeq → Option String
  | .ofList l => l.getLast?
  | .ofStr s => if s.isEmpty then none else some (String.singleton s.back)

/-- Python `seq[:-1]`. -/
def pySeqDropLast : PySeq → PySeq
  | .ofList l => .ofList l.dropLast
  | .ofStr s => .ofStr (s.dropRight 1)

/-- JSON value that `json.dump({"solved_ids": seq})` stores in the
`solved_ids` field. -/
def pySeqSolvedJ : PySeq → Json
  | .ofList l => Json.jArr (l.map Json.jStr)
  | .ofStr s => Json.jStr s

/-- On-disk progress state: the revision file (one id per appended line)
and the `solved_ids` value of the history file. -/
structure RevState where
  revisionFile : List String
  historySolvedIds : Json

/-- Embeds `SheetHandler.mark_revision`: no-op on a falsy argument, else
append `current_history[-1]` to the revision file and rewrite the history
file with `current_history[:-1]` as the `solved_ids` value. -/
def mark_revision (current_history : PySeq) (st : RevState) : RevState :=
  if pySeqTruthy current_history then
    match pySeqLast current_history with
    | some revision_id =>
      { revisionFile := st.revisionFile ++ [revision_id],
        historySolvedIds := pySeqSolvedJ (pySeqDropLast current_history) }
    | none => st
  else st

/-- Python's `str.lower()` (character-wise lowering, as in CPython for the
ASCII identifiers used here).  Defined by structural recursion over the
character list so that it evaluates inside the kernel. -/
def pyLower (s : String) : String :=
  String.mk (s.toList.map Char.toLower)

/-- Substring test on character lists (Python's `needle in hay`). -/
def isSubstrChars (needle hay : List Char) : Bool :=
  (List.range (hay.length + 1)).any (fun i => needle.isPrefixOf (hay.drop i))

/-- Python's `needle in hay` on strings. -/
def strContains (hay needle : String) : Bool :=
  isSubstrChars needle.toList hay.toList

/-- Python's `str.isdigit()` (restricted to ASCII digits, code points 48
to 57, the only characters occurring in this repository's inputs). -/
def pyIsDigit (s : String) : Bool :=
  !s.isEmpty && s.toList.all (fun c => 48 ≤ c.toNat && c.toNat ≤ 57)

/-- Python's `int()` on a string that passed `isdigit()`. -/
def pyToNat (s : String) : Nat :=
  s.toList.foldl (fun n c => n * 10 + (c.toNat - '0'.toNat)) 0

/-- Embeds the legacy CLI `SheetHandlerFactory.get_sheet_type`
(`sheet_handler_factory.py`, lines 49-57): exact match on "random", an
unchecked index on digits (`none` models the raised `IndexError`), else a
case-sensitive substring filter. -/
def get_sheet_type_cli (inp : String) (sheet_types : List String) :
    Option (List String) :=
  if inp = "random" then some sheet_types
  else if pyIsDigit inp then
    (sheet_types.get? (pyToNat inp)).map (fun s => [s])
  else some (sheet_types.filter (fun sheet => strContains sheet inp))

/-- Embeds the server `SheetHandlerFactory.get_sheet_type`
(`server/sheet_handler_factory.py`, after `input(...).strip()`):
lower-cased match on "random", a bounds-checked index returning `[]` when
out of range, a case-insensitive substring filter on other non-empty text,
and `[]` on empty input. -/
def get_sheet_type_server (inp : String) (sheet_types : List String) :
    List String :=
  if pyLower inp = "random" then sheet_types
  else if pyIsDigit inp then
    match sheet_types.get? (pyToNat inp) with
    | some s => [s]
    | none => []
  else if inp ≠ "" then
    sheet_types.filter (fun sheet => strContains (pyLower sheet) (pyLower inp))
  else []

/-- Embeds the `/filter-sheets` endpoint of `server/app.py`: a falsy
`filter_text` (absent or empty) leaves the list unchanged, otherwise a
case-insensitive substring filter is applied (an empty result is returned
as an empty list). -/
def filter_sheets (filter_text : Option String) (sheet_types : List String) :
    List String :=
  match filter_text with
  | none => sheet_types
  | some ft =>
    if ft = "" then sheet_types
    else sheet_types.filter (fun sheet => strContains (pyLower sheet) (pyLower ft))

/-- Topic id as computed by the `/select-topic` endpoint:
`str(random_topic.get("id", "unknown"))`. -/
def serverTopicId (t : Topic) : String :=
  match t.id with
  | none => "unknown"
  | some v => pyStr v

/-- Result of the `/select-topic` endpoint: an `HTTPException` status code
or the returned `(topic_id, title)`. -/
inductive ServerResult where
  | httpError (code : Nat)
  | ok (topic_id : String) (title : String)
deriving DecidableEq, Repr

/-- Embeds the selection part of the `/select-topic` endpoint of
`server/app.py` (after the sheet type is fixed): 404 on empty data, empty
unsolved set, or failed draw; otherwise the topic id defaults to
`"unknown"` when the `id` key is absent, the title to `"Unknown Title"`
(base-class `get_title`), and the id is appended to the history.  Unlike
`SheetHandler.process` there is no missing-id abort and no repeat guard. -/
def serverSelectTopic (data : List Topic) (hist : List String) (k : Nat) :
    ServerResult × List String :=
  if data.isEmpty then (.httpError 404, hist)
  else
    let filtered := remove_solved data hist
    if filtered.isEmpty then (.httpError 404, hist)
    else
      match get_random_topic k filtered with
      | none => (.httpError 404, hist)
      | some t =>
        let tid := serverTopicId t
        (.ok tid (t.title.getD "Unknown Title"),
         update_history hist (some (PyVal.vStr tid)))

/-- Iterated selection: run `processStep` once per entry of `picks`,
threading the history through (the revision prompt always answered "n"). -/
def runSelect (data : List Topic) : List Nat → List String → List String
  | [], hist => hist
  | k :: ks, hist => runSelect data ks (processStep data k hist).2

/-- Interleaving of two concurrent `selectTopic` calls on the same sheet
type in which both read the history file before either writes it (each
call is a whole-file read followed by a whole-file write, with no locking
in the source).  The second write lands last. -/
def raceBothReadFirst (data : List Topic) (k₁ k₂ : Nat) (hist : List String) :
    (SelOutcome × SelOutcome) × List String :=
  let r₁ := processStep data k₁ hist
  let r₂ := processStep data k₂ hist
  ((r₁.1, r₂.1), r₂.2)

/-- Sample topic with id "7". -/
def tSeven : Topic := ⟨some (PyVal.vStr "7"), some "Two Sum"⟩

/-- Sample topic with no id field. -/
def tNoId : Topic := ⟨none, none⟩

/-- Sample topic with id "9". -/
def tNine : Topic := ⟨some (PyVal.vStr "9"), some "Three Sum"⟩

/-! ### Helper lemmas about the embedded operations -/

/-- Computation rule for `pyStr` on string values. -/
@[simp] theorem pyStr_vStr (s : String) : pyStr (PyVal.vStr s) = s := rfl

/-- Membership in the unsolved set computed by `remove_solved`. -/
theorem mem_remove_solved {data : List Topic} {hist : List String} {t : Topic} :
    t ∈ remove_solved data hist ↔ t ∈ data ∧ pyStr (getIdD t) ∉ hist := by
  simp [remove_solved, List.mem_filter, List.contains]

/-- A topic produced by `get_random_topic` belongs to the candidate list. -/
theorem mem_of_get_random_topic {k : Nat} {l : List Topic} {t : Topic}
    (h : get_random_topic k l = some t) : t ∈ l := by
  unfold get_random_topic randomChoice at h
  split at h
  · exact absurd h (by simp)
  · exact List.get?_mem h

/-- On a non-empty list `get_random_topic` always yields an element. -/
theorem get_random_topic_of_ne_nil {k : Nat} {l : List Topic} (h : l ≠ []) :
    ∃ t, get_random_topic k l = some t := by
  unfold get_random_topic randomChoice
  rw [if_neg (by simpa [List.isEmpty_iff] using h)]
  have hlt : k % l.length < l.length := Nat.mod_lt _ (List.length_pos.mpr h)
  exact ⟨l.get ⟨_, hlt⟩, List.get?_eq_get hlt⟩

/-- With an empty unsolved set `processStep` signals `noTopics` and leaves
the history untouched. -/
theorem processStep_of_empty {data : List Topic} {hist : List String} (k : Nat)
    (h : remove_solved data hist = []) :
    processStep data k hist = (SelOutcome.noTopics, hist) := by
  simp [processStep, h, get_random_topic]

/-- Characterization of a `selected` outcome of `processStep`: the id was
not previously in the history and is exactly the one appended. -/
theorem processStep_selected_spec {data : List Topic} {hist : List String}
    {k : Nat} {t : Topic} (h : (processStep data k hist).1 = SelOutcome.selected t) :
    t ∈ remove_solved data hist ∧ pyStr (getIdD t) ∉ hist ∧
      (processStep data k hist).2 = hist ++ [pyStr (getIdD t)] := by
  rcases hm : get_random_topic k (remove_solved data hist) with _ | u
  · simp [processStep, hm] at h
  · have hum := mem_of_get_random_topic hm
    by_cases hid : getIdD u = PyVal.vNone
    · simp [processStep, hm, hid] at h
    · have hnot : pyStr (getIdD u) ∉ hist := (mem_remove_solved.mp hum).2
      have hteq : u = t := by
        have hcopy := h
        simp [processStep, hm, hid, hnot, List.contains] at hcopy
        exact hcopy
      subst hteq
      refine ⟨hum, hnot, ?_⟩
      simp [processStep, hm, hid, hnot, List.contains, update_history]

/-- When every stored topic has an id and the unsolved set is non-empty,
`processStep` selects some unsolved topic and appends its id. -/
theorem processStep_progress {data : List Topic} {hist : List String} (k : Nat)
    (h1 : ∀ t ∈ data, getIdD t ≠ PyVal.vNone)
    (h2 : remove_solved data hist ≠ []) :
    ∃ t, t ∈ remove_solved data hist ∧
      processStep data k hist = (SelOutcome.selected t, hist ++ [pyStr (getIdD t)]) := by
  obtain ⟨t, ht⟩ := get_random_topic_of_ne_nil (k := k) h2
  have htm : t ∈ remove_solved data hist := mem_of_get_random_topic ht
  have htd := mem_remove_solved.mp htm
  have hid : getIdD t ≠ PyVal.vNone := h1 t htd.1
  exact ⟨t, htm,
    by simp [processStep, ht, hid, htd.2, List.contains, update_history]⟩

/-- Filtering against a longer history refines the unsolved set. -/
theorem remove_solved_append_singleton (data : List Topic) (hist : List String)
    (s : String) :
    remove_solved data (hist ++ [s]) =
      (remove_solved data hist).filter (fun x => !(pyStr (getIdD x) == s)) := by
  unfold remove_solved
  rw [List.filter_filter]
  apply List.filter_congr
  intro a _
  by_cases h1 : pyStr (getIdD a) ∈ hist <;> by_cases h2 : pyStr (getIdD a) = s <;>
    simp [List.contains, h1, h2]

/-- Each selecting step strictly shrinks the unsolved set. -/
theorem unsolved_length_lt {data : List Topic} {hist : List String} (k : Nat)
    (h1 : ∀ t ∈ data, getIdD t ≠ PyVal.vNone)
    (h2 : remove_solved data hist ≠ []) :
    (remove_solved data (processStep data k hist).2).length <
      (remove_solved data hist).length := by
  obtain ⟨t, htm, hps⟩ := processStep_progress k h1 h2
  rw [hps]
  rw [remove_solved_append_singleton]
  refine Nat.lt_of_le_of_ne (List.length_filter_le _ _) (fun heq => ?_)
  have := List.filter_length_eq_length.mp heq t htm
  simp at this

/-- Iterating `processStep` at least as often as there are unsolved topics
exhausts the sheet: the next call signals `noTopics`. -/
theorem runSelect_exhausts {data : List Topic}
    (h1 : ∀ t ∈ data, getIdD t ≠ PyVal.vNone) :
    ∀ (picks : List Nat) (hist : List String) (k : Nat),
      (remove_solved data hist).length ≤ picks.length →
      (processStep data k (runSelect data picks hist)).1 = SelOutcome.noTopics := by
  intro picks
  induction picks with
  | nil =>
    intro hist k hle
    have h0 : remove_solved data hist = [] :=
      List.length_eq_zero.mp (Nat.le_zero.mp hle)
    simp [runSelect, processStep_of_empty k h0]
  | cons p ps ih =>
    intro hist k hle
    by_cases hu : remove_solved data hist = []
    · have hstep : runSelect data (p :: ps) hist = runSelect data ps hist := by
        simp [runSelect, processStep_of_empty p hu]
      rw [hstep]
      exact ih hist k (by simp [hu])
    · have hlt := unsolved_length_lt p h1 hu
      have hstep : runSelect data (p :: ps) hist =
          runSelect data ps (processStep data p hist).2 := rfl
      rw [hstep]
      refine ih _ k (Nat.lt_succ_iff.mp (lt_of_lt_of_le hlt ?_))
      simpa using hle

/-- With a singleton unsolved set carrying an id, `processStep` must
select exactly that topic, whatever the random draw. -/
theorem processStep_of_singleton {data : List Topic} {hist : List String}
    {t : Topic} (k : Nat) (h : remove_solved data hist = [t])
    (hid : getIdD t ≠ PyVal.vNone) :
    processStep data k hist = (SelOutcome.selected t, hist ++ [pyStr (getIdD t)]) := by
  have htm : t ∈ remove_solved data hist := by simp [h]
  have hnot : pyStr (getIdD t) ∉ hist := (mem_remove_solved.mp htm).2
  have hg : get_random_topic k (remove_solved data hist) = some t := by
    rw [h]
    simp [get_random_topic, randomChoice, Nat.mod_one]
  simp [processStep, hg, hid, hnot, List.contains, update_history]

/-- ASCII digits are unchanged by `Char.toLower`. -/
theorem toLower_of_digit {c : Char} (h1 : 48 ≤ c.toNat) (h2 : c.toNat ≤ 57) :
    c.toLower = c := by
  simp only [Char.toLower]
  rw [if_neg]
  omega

/-- A string of ASCII digits is unchanged by `pyLower`. -/
theorem pyLower_of_digits {s : String} (h : pyIsDigit s = true) : pyLower s = s := by
  simp only [pyIsDigit, Bool.and_eq_true, List.all_eq_true, decide_eq_true_eq] at h
  have hmap : ∀ l : List Char, (∀ c ∈ l, 48 ≤ c.toNat ∧ c.toNat ≤ 57) →
      l.map Char.toLower = l := by
    intro l
    induction l with
    | nil => intro _; rfl
    | cons c cs ihc =>
      intro hl
      have hc := hl c (List.mem_cons_self c cs)
      simp [toLower_of_digit hc.1 hc.2,
        ihc (fun x hx => hl x (List.mem_cons_of_mem _ hx))]
  show String.mk (s.toList.map Char.toLower) = s
  rw [hmap _ h.2]
  cases s
  rfl

/-- A digit string cannot be the keyword "random". -/
theorem ne_random_of_digits {s : String} (h : pyIsDigit s = true) :
    s ≠ "random" := by
  rintro rfl
  exact absurd h (by decide)

/-! ### Claims -/

/-- Claim C1: `remove_solved` returns exactly the stored topics whose id,
normalized to a string, is not in the history; every topic the selection
flow of `process` returns (`selected` outcome) has an id that was absent
from the history at call time, and exactly that id is what gets recorded;
and every non-`selected` outcome records nothing — so a topic whose id is
already in the history is never returned and never recorded. -/
theorem claim1_unsolved_set_and_fresh_selection :
    (∀ (data : List Topic) (hist : List String) (t : Topic),
        t ∈ remove_solved data hist ↔ t ∈ data ∧ pyStr (getIdD t) ∉ hist) ∧
    (∀ (data : List Topic) (k : Nat) (hist : List String) (t : Topic),
        (processStep data k hist).1 = SelOutcome.selected t →
        pyStr (getIdD t) ∉ hist ∧
          (processStep data k hist).2 = hist ++ [pyStr (getIdD t)]) ∧
    (∀ (data : List Topic) (k : Nat) (hist : List String),
        (∀ t : Topic, (processStep data k hist).1 ≠ SelOutcome.selected t) →
        (processStep data k hist).2 = hist) := by
  refine ⟨fun data hist t => mem_remove_solved, ?_, ?_⟩
  · intro data k hist t h
    obtain ⟨-, hnot, happ⟩ := processStep_selected_spec h
    exact ⟨hnot, happ⟩
  · intro data k hist hno
    rcases hm : get_random_topic k (remove_solved data hist) with _ | t
    · simp [processStep, hm]
    · by_cases hid : getIdD t = PyVal.vNone
      · simp [processStep, hm, hid]
      · have hnot : pyStr (getIdD t) ∉ hist :=
          (mem_remove_solved.mp (mem_of_get_random_topic hm)).2
        refine absurd ?_ (hno t)
        simp [processStep, hm, hid, hnot, List.contains]

/-- Witness for C1: a fresh selection of topic "7" records the absent id
"7", and a run on an exhausted sheet records nothing. -/
theorem claim1_witness :
    (pyStr (getIdD tSeven) ∉ ([] : List String) ∧
      (processStep [tSeven] 0 []).2 = [] ++ [pyStr (getIdD tSeven)]) ∧
    (processStep [tSeven] 0 ["7"]).2 = ["7"] :=
  ⟨claim1_unsolved_set_and_fresh_selection.2.1 [tSeven] 0 [] tSeven (by decide),
   claim1_unsolved_set_and_fresh_selection.2.2 [tSeven] 0 ["7"]
     (by
       intro t h
       have hn : (processStep [tSeven] 0 ["7"]).1 = SelOutcome.noTopics := by
         decide
       rw [hn] at h
       exact SelOutcome.noConfusion h)⟩

/-- Claim C2 (code bug in the `/mark-revision` endpoint): `server/app.py`
passes the raw `topic_id` string where `SheetHandler.mark_revision`
expects the history list.  With `topic_id = "42"` and a history record
holding exactly "42", the call appends only the last character "2" to the
revision file and rewrites the history file with the string "4" as
`solved_ids` — an invalid shape that a later `_read_history` discards
wholesale.  "42" never enters the revision record, and a second identical
call appends "2" a second time, so neither the claimed postcondition nor
idempotence holds. -/
theorem claim2_mark_revision_endpoint_bug :
    mark_revision (PySeq.ofStr "42") ⟨[], Json.jArr [Json.jStr "42"]⟩ =
      ⟨["2"], Json.jStr "4"⟩ ∧
    List.count "42" ["2"] = 0 ∧
    mark_revision (PySeq.ofStr "42")
        (mark_revision (PySeq.ofStr "42") ⟨[], Json.jArr [Json.jStr "42"]⟩) =
      ⟨["2", "2"], Json.jStr "4"⟩ ∧
    (read_history (HistFile.parsed
        (Json.jObj [("solved_ids", Json.jStr "4")]))).1 = [] :=
  ⟨rfl, rfl, rfl, rfl⟩

/-- Claim C3: in the CLI flow, a selection immediately followed by
`mark_revision` on the updated in-memory history restores the history
record to exactly its pre-selection contents while the revision record
gains the id of the returned topic. -/
theorem claim3_select_then_revision_round_trip (data : List Topic) (k : Nat)
    (hist rev : List String) (t : Topic)
    (h : (processStep data k hist).1 = SelOutcome.selected t) :
    mark_revision (PySeq.ofList (processStep data k hist).2)
        ⟨rev, Json.jArr (hist.map Json.jStr)⟩ =
      ⟨rev ++ [pyStr (getIdD t)], Json.jArr (hist.map Json.jStr)⟩ := by
  obtain ⟨-, -, h2⟩ := processStep_selected_spec h
  rw [h2]
  simp [mark_revision, pySeqTruthy, pySeqLast, pySeqDropLast, pySeqSolvedJ,
    List.getLast?_concat]

/-- Witness for C3 at a concrete selection: topic "7" from a fresh sheet. -/
theorem claim3_witness :
    (processStep [tSeven] 0 []).1 = SelOutcome.selected tSeven ∧
    mark_revision (PySeq.ofList (processStep [tSeven] 0 []).2)
        ⟨[], Json.jArr (([] : List String).map Json.jStr)⟩ =
      ⟨[] ++ [pyStr (getIdD tSeven)],
       Json.jArr (([] : List String).map Json.jStr)⟩ :=
  ⟨by decide,
   claim3_select_then_revision_round_trip [tSeven] 0 [] [] tSeven (by decide)⟩

/-- Claim C4 (counterexample): `update_history` is a plain list append,
not a set-add: adding id "7" to a history already holding "7" leaves two
occurrences, not one. -/
theorem claim4_counterexample :
    update_history ["7"] (some (PyVal.vStr "7")) = ["7", "7"] ∧
    List.count "7" (update_history ["7"] (some (PyVal.vStr "7"))) = 2 :=
  ⟨rfl, rfl⟩

/-- Claim C4 (amended): the history add appends the string-normalized id
unconditionally, so an id already present gains one further occurrence
per call; only a `None` id is skipped.  Within one selection the repeat
is prevented solely by the preceding `remove_solved` filter. -/
theorem claim4_amended_history_append (hist : List String) (v : PyVal) :
    update_history hist (some v) = hist ++ [pyStr v] ∧
    List.count (pyStr v) (update_history hist (some v)) =
      List.count (pyStr v) hist + 1 ∧
    update_history hist none = hist := by
  refine ⟨rfl, ?_, rfl⟩
  simp [update_history, List.count_singleton_self]

/-- Claim C5: with an empty unsolved set the selection returns the
no-topics signal through the explicit guard and leaves the history
untouched; the guarded random draw is total (`none` on the empty list,
an element otherwise, never an out-of-range access); and repeated
selection without revision reaches the no-topics signal after at most as
many runs as there are unsolved topics, provided the stored topics carry
ids. -/
theorem claim5_empty_guard_and_exhaustion :
    (∀ (data : List Topic) (k : Nat) (hist : List String),
        remove_solved data hist = [] →
        processStep data k hist = (SelOutcome.noTopics, hist)) ∧
    (∀ k : Nat, get_random_topic k ([] : List Topic) = none) ∧
    (∀ (k : Nat) (l : List Topic), l ≠ [] →
        (get_random_topic k l).isSome = true) ∧
    (∀ (data : List Topic) (picks : List Nat) (hist : List String) (k : Nat),
        (∀ t ∈ data, getIdD t ≠ PyVal.vNone) →
        (remove_solved data hist).length ≤ picks.length →
        (processStep data k (runSelect data picks hist)).1 =
          SelOutcome.noTopics) := by
  refine ⟨fun data k hist h => processStep_of_empty k h,
          fun k => rfl,
          fun k l h => ?_,
          fun data picks hist k h1 hle => runSelect_exhausts h1 picks hist k hle⟩
  obtain ⟨t, ht⟩ := get_random_topic_of_ne_nil (k := k) h
  simp [ht]

/-- Witness for C5: a solved-out singleton sheet signals no topics, and
one selection exhausts a fresh singleton sheet. -/
theorem claim5_witness :
    processStep [tSeven] 0 ["7"] = (SelOutcome.noTopics, ["7"]) ∧
    (get_random_topic 3 [tSeven]).isSome = true ∧
    (processStep [tSeven] 1 (runSelect [tSeven] [0] [])).1 =
      SelOutcome.noTopics :=
  ⟨claim5_empty_guard_and_exhaustion.1 [tSeven] 0 ["7"] (by decide),
   claim5_empty_guard_and_exhaustion.2.2.1 3 [tSeven] (by decide),
   claim5_empty_guard_and_exhaustion.2.2.2 [tSeven] [0] [] 1 (by decide)
     (by decide)⟩

/-- Claim C6 (counterexample): when the randomly chosen record lacks an
`id`, `SheetHandler.process` aborts the whole selection even though
another valid topic remains in the filtered set (no re-derivation), and
the `/select-topic` endpoint surfaces the record with placeholder id
"unknown" to the caller and appends "unknown" to the history. -/
theorem claim6_counterexample :
    processStep [tNoId, tSeven] 0 [] = (SelOutcome.missingId, []) ∧
    serverSelectTopic [tNoId] [] 0 =
      (ServerResult.ok "unknown" "Unknown Title", ["unknown"]) :=
  ⟨by decide, by decide⟩

/-- Claim C6 (amended): if the chosen record's id is missing or null, the
CLI selection logs and aborts with the history unchanged instead of
re-deriving from the remaining filtered set; the endpoint, when the chosen
record lacks the `id` key, surfaces it with placeholder id "unknown" and
records "unknown" in the history. -/
theorem claim6_amended_missing_id (data : List Topic) (k : Nat)
    (hist : List String) (t : Topic)
    (h : get_random_topic k (remove_solved data hist) = some t)
    (hid : getIdD t = PyVal.vNone) :
    processStep data k hist = (SelOutcome.missingId, hist) ∧
    (t.id = none → data ≠ [] →
      serverSelectTopic data hist k =
        (ServerResult.ok "unknown" (t.title.getD "Unknown Title"),
         hist ++ ["unknown"])) := by
  constructor
  · simp [processStep, h, hid]
  · intro hnone hdata
    have hde : data.isEmpty = false := by
      simp [List.isEmpty_iff]
      exact hdata
    have hfne : remove_solved data hist ≠ [] := by
      intro hf
      rw [hf] at h
      simp [get_random_topic] at h
    have hfe : (remove_solved data hist).isEmpty = false := by
      simp [List.isEmpty_iff]
      exact hfne
    simp [serverSelectTopic, hde, hfe, h, serverTopicId, hnone, update_history]

/-- Witness for C6 (amended) on a sheet whose only record lacks an id. -/
theorem claim6_witness :
    processStep [tNoId] 0 [] = (SelOutcome.missingId, []) ∧
    serverSelectTopic [tNoId] [] 0 =
      (ServerResult.ok "unknown" (tNoId.title.getD "Unknown Title"),
       [] ++ ["unknown"]) :=
  ⟨(claim6_amended_missing_id [tNoId] 0 [] tNoId (by decide) (by decide)).1,
   (claim6_amended_missing_id [tNoId] 0 [] tNoId (by decide) (by decide)).2
     (by decide) (by decide)⟩

/-- Claim C8 (counterexample): the legacy CLI filter
(`sheet_handler_factory.py`, `get_sheet_type`) violates the property:
index "5" on a three-element list is not bounds-checked and raises an
unhandled `IndexError` (modelled by `none`), and its text filter is
case-sensitive, so "DBMS" matches nothing. -/
theorem claim8_counterexample :
    get_sheet_type_cli "5" ["sde_sheet", "dbms_core_sheet", "os_core_sheet"]
      = none ∧
    get_sheet_type_cli "DBMS" ["sde_sheet", "dbms_core_sheet"] = some [] :=
  ⟨by decide, by decide⟩

/-- Claim C8 (amended): the server-side filters satisfy the property —
case-insensitive substring filtering (exact membership characterization
and the dbms example), a bounds-checked index that returns the singleton
entry in range and the explicit empty list out of range, the full list for
the random flag, and the `/filter-sheets` endpoint passing an absent
filter through — while the legacy CLI `get_sheet_type` raises an unhandled
`IndexError` on an out-of-range index. -/
theorem claim8_amended_filter_behaviour :
    (get_sheet_type_server "dbms" ["sde_sheet", "dbms_core_sheet"] =
      ["dbms_core_sheet"]) ∧
    (∀ (l : List String) (s ft : String), ft ≠ "" → pyIsDigit ft = false →
        pyLower ft ≠ "random" →
        (s ∈ get_sheet_type_server ft l ↔
          s ∈ l ∧ strContains (pyLower s) (pyLower ft) = true)) ∧
    (∀ (l : List String) (inp : String), pyIsDigit inp = true →
        l.length ≤ pyToNat inp → get_sheet_type_server inp l = []) ∧
    (∀ (l : List String) (inp : String), pyIsDigit inp = true →
        ∀ h : pyToNat inp < l.length,
        get_sheet_type_server inp l = [l.get ⟨pyToNat inp, h⟩]) ∧
    (∀ l : List String, get_sheet_type_server "random" l = l) ∧
    (∀ l : List String, filter_sheets none l = l) ∧
    (∀ (l : List String) (inp : String), pyIsDigit inp = true →
        l.length ≤ pyToNat inp → get_sheet_type_cli inp l = none) := by
  have hrnd : pyLower "random" = "random" := by decide
  refine ⟨by decide, ?_, ?_, ?_, ?_, fun l => rfl, ?_⟩
  · intro l s ft hne hd hr
    simp [get_sheet_type_server, hr, hd, hne, List.mem_filter]
  · intro l inp hd hle
    have hlow : pyLower inp ≠ "random" := by
      rw [pyLower_of_digits hd]
      exact ne_random_of_digits hd
    simp [get_sheet_type_server, hlow, hd, List.getElem?_len_le hle]
  · intro l inp hd h
    have hlow : pyLower inp ≠ "random" := by
      rw [pyLower_of_digits hd]
      exact ne_random_of_digits hd
    simp [get_sheet_type_server, hlow, hd, List.getElem?_eq_getElem h]
  · intro l
    simp [get_sheet_type_server, hrnd]
  · intro l inp hd hle
    simp [get_sheet_type_cli, ne_random_of_digits hd, hd,
      List.getElem?_len_le hle]

/-- Witness for C8 (amended): out-of-range index "5" on three entries
yields the empty list server-side and the raised error in the CLI, and
the case-insensitive membership characterization at "DBMS". -/
theorem claim8_witness :
    (get_sheet_type_server "5"
        ["sde_sheet", "dbms_core_sheet", "os_core_sheet"] = []) ∧
    ("dbms_core_sheet" ∈
        get_sheet_type_server "DBMS" ["sde_sheet", "dbms_core_sheet"] ↔
      "dbms_core_sheet" ∈ ["sde_sheet", "dbms_core_sheet"] ∧
        strContains (pyLower "dbms_core_sheet") (pyLower "DBMS") = true) ∧
    get_sheet_type_cli "5" ["sde_sheet", "dbms_core_sheet", "os_core_sheet"]
      = none :=
  ⟨claim8_amended_filter_behaviour.2.2.1 _ "5" (by decide) (by decide),
   claim8_amended_filter_behaviour.2.1 _ "dbms_core_sheet" "DBMS"
     (by decide) (by decide) (by decide),
   claim8_amended_filter_behaviour.2.2.2.2.2.2 _ "5" (by decide) (by decide)⟩

/-- Claim C9 (counterexample): under the interleaving in which both calls
read the history before either writes it (possible, since the history
update is an unlocked whole-file read-modify-write), two concurrent
selections on a sheet with exactly one unsolved topic both select topic
"7", and the final history holds one addition — the second write clobbers
the first. -/
theorem claim9_counterexample :
    raceBothReadFirst [tSeven] 0 0 [] =
      ((SelOutcome.selected tSeven, SelOutcome.selected tSeven), ["7"]) := by
  decide

/-- Claim C9 (amended): because the history append is a whole-record
read-modify-write with no atomic set-insert, under the both-read-first
schedule any two concurrent calls finding exactly one unsolved topic
(with an id) both return that same topic, and only a single history
addition survives. -/
theorem claim9_amended_race_duplicates (data : List Topic) (k₁ k₂ : Nat)
    (hist : List String) (t : Topic)
    (h : remove_solved data hist = [t]) (hid : getIdD t ≠ PyVal.vNone) :
    raceBothReadFirst data k₁ k₂ hist =
      ((SelOutcome.selected t, SelOutcome.selected t),
       hist ++ [pyStr (getIdD t)]) := by
  simp [raceBothReadFirst, processStep_of_singleton k₁ h hid,
    processStep_of_singleton k₂ h hid]

/-- Witness for C9 (amended) with two distinct random draws. -/
theorem claim9_witness :
    raceBothReadFirst [tSeven] 1 2 [] =
      ((SelOutcome.selected tSeven, SelOutcome.selected tSeven),
       [] ++ [pyStr (getIdD tSeven)]) :=
  claim9_amended_race_duplicates [tSeven] 1 2 [] tSeven (by decide) (by decide)

/-- Claim C10: `_read_history` never raises: an absent file is created
holding an empty solved-id list and yields the empty list; empty content,
malformed JSON, an I/O failure, or a parsed value without the expected
`{"solved_ids": [...]}` shape all yield the empty list; and a well-shaped
file yields exactly its stored ids, each normalized to a string by
`str()`, whatever type was stored. -/
theorem claim10_read_history_total_and_normalizing :
    (read_history HistFile.absent =
      ([], HistFile.parsed (Json.jObj [("solved_ids", Json.jArr [])]))) ∧
    ((read_history HistFile.emptyContent).1 = []) ∧
    ((read_history HistFile.malformed).1 = []) ∧
    ((read_history HistFile.readError).1 = []) ∧
    (∀ v : Json,
        (∀ fields, v = Json.jObj fields →
          ∀ ids, jObjLookup fields "solved_ids" ≠ some (Json.jArr ids)) →
        (read_history (HistFile.parsed v)).1 = []) ∧
    (∀ (fields : List (String × Json)) (ids : List Json),
        jObjLookup fields "solved_ids" = some (Json.jArr ids) →
        (read_history (HistFile.parsed (Json.jObj fields))).1 =
          ids.map pyStrJ) := by
  refine ⟨rfl, rfl, rfl, rfl, ?_, ?_⟩
  · intro v hv
    cases v with
    | jNull => rfl
    | jBool b => rfl
    | jNum n => rfl
    | jStr s => rfl
    | jArr l => rfl
    | jObj fields =>
      rcases hl : jObjLookup fields "solved_ids" with _ | j
      · simp [read_history, hl]
      · cases j with
        | jArr ids => exact absurd hl (hv fields rfl ids)
        | jNull => simp [read_history, hl]
        | jBool b => simp [read_history, hl]
        | jNum n => simp [read_history, hl]
        | jStr s => simp [read_history, hl]
        | jObj f2 => simp [read_history, hl]
  · intro fields ids h
    simp [read_history, h]

/-- Witness for C10: stored integer and null ids come back as the strings
"42" and "None", and a non-object file yields the empty history. -/
theorem claim10_witness :
    (read_history (HistFile.parsed (Json.jObj
        [("solved_ids", Json.jArr [Json.jNum 42, Json.jNull])]))).1 =
      [Json.jNum 42, Json.jNull].map pyStrJ ∧
    (read_history (HistFile.parsed (Json.jNum 3))).1 = [] :=
  ⟨claim10_read_history_total_and_normalizing.2.2.2.2.2 _ _ rfl,
   claim10_read_history_total_and_normalizing.2.2.2.2.1 (Json.jNum 3)
     (fun _fields hf _ids => Json.noConfusion hf)⟩

end SheetOpener
